import Mathlib

/-!
Verification of the ridgeplot color-interpolation subsystem.

The Python sources embedded here are `src/ridgeplot/_utils.py` and
`src/ridgeplot/_color/interpolation.py`.  Python floats and ints are embedded
as rationals, fallible code returns `Except`, and the Python exceptions are
represented by the constructors of `RpError`.  The helpers that the excerpt
imports from modules outside it (`ridgeplot._color.utils`,
`ridgeplot._color.colorscale`, `plotly.express.colors`) are modelled from the
specification; each such definition says so in its doc comment.
-/

deriving instance DecidableEq for Except

namespace Ridgeplot

/-- A density trace, as `interpolation.py` manipulates it: a list of (x, y)
points (the code unpacks `zip(*trace)` into the x-sequence and the
y-sequence). -/
abbrev DensityTrace : Type := List (ℚ × ℚ)

/-- A row of traces sharing a vertical plot position. -/
abbrev DensityRow : Type := List DensityTrace

/-- The dataset: an ordered sequence of rows. -/
abbrev Densities : Type := List DensityRow

/-- An RGB(A) color value; the alpha channel is optional. -/
inductive Color : Type where
  | rgb (r g b : ℚ)
  | rgba (r g b a : ℚ)
  deriving DecidableEq

/-- An ordered sequence of (position, color) stops. -/
abbrev ColorScale : Type := List (ℚ × Color)

/-- The Python exceptions raised by the embedded code, one constructor per
raise site. -/
inductive RpError : Type where
  /-- ValueError in get_xy_extrema: an array whose length is not 2. -/
  | expected2D (n : ℕ)
  /-- ValueError in get_xy_extrema: a member sequence is empty. -/
  | emptyArray
  /-- ValueError in get_xy_extrema: the overall collection is empty. -/
  | emptyArraySequence
  /-- ValueError in normalise_min_max: max_ <= min_. -/
  | maxNotGreaterMin
  /-- ValueError in normalise_min_max: val outside [min_, max_]. -/
  | valOutOfBounds
  /-- ValueError in interpolate_color: p outside [0, 1]. -/
  | pOutOfRange
  /-- ValueError from min() applied to an empty sequence. -/
  | minEmptySequence
  /-- ValueError from max() applied to an empty sequence. -/
  | maxEmptySequence
  /-- ValueError from unpacking zip(*trace) of an empty trace. -/
  | unpackEmpty
  /-- ZeroDivisionError from sum(y) = 0 in a weighted mean. -/
  | zeroDivision
  /-- TypeError from a call passing a keyword argument the callee does not
  declare. -/
  | typeErrorUnexpectedKw
  /-- ValueError in compute_trace_colors: unrecognized colormode. -/
  | invalidColormode (got : String)
  deriving DecidableEq

/-- Python min(l) for a nonempty list l (0 on the empty list; every use below
guards emptiness the way the Python code does). -/
def minD : List ℚ → ℚ
  | [] => 0
  | a :: as => as.foldl min a

/-- Python max(l) for a nonempty list l (0 on the empty list; every use below
guards emptiness the way the Python code does). -/
def maxD : List ℚ → ℚ
  | [] => 0
  | a :: as => as.foldl max a

/-- The accumulation loop of get_xy_extrema (_utils.py lines 44-52): each
array must have exactly 2 member sequences, both non-empty; their elements are
appended to the running x and y lists. -/
def gxeCollect : List (List (List ℚ)) → Except RpError (List ℚ × List ℚ)
  | [] => Except.ok ([], [])
  | a :: rest =>
    match a with
    | [xs, ys] =>
      if xs.length = 0 ∨ ys.length = 0 then Except.error RpError.emptyArray
      else do
        let r ← gxeCollect rest
        Except.ok (xs ++ r.1, ys ++ r.2)
    | _ => Except.error (RpError.expected2D a.length)

/-- get_xy_extrema (_utils.py lines 31-55): global (x_min, x_max, y_min,
y_max) of a collection of 2D array-likes. -/
def get_xy_extrema (arrays : List (List (List ℚ))) : Except RpError (ℚ × ℚ × ℚ × ℚ) := do
  let r ← gxeCollect arrays
  if r.1.length = 0 ∨ r.2.length = 0 then Except.error RpError.emptyArraySequence
  else Except.ok (minD r.1, maxD r.1, minD r.2, maxD r.2)

/-- normalise_min_max (_utils.py lines 58-65). -/
def normalise_min_max (val min_ max_ : ℚ) : Except RpError ℚ :=
  if max_ ≤ min_ then Except.error RpError.maxNotGreaterMin
  else if ¬(min_ ≤ val ∧ val ≤ max_) then Except.error RpError.valOutOfBounds
  else Except.ok ((val - min_) / (max_ - min_))

/-- Red channel of a color. -/
def Color.red : Color → ℚ
  | Color.rgb r _ _ => r
  | Color.rgba r _ _ _ => r

/-- Green channel of a color. -/
def Color.green : Color → ℚ
  | Color.rgb _ g _ => g
  | Color.rgba _ g _ _ => g

/-- Blue channel of a color. -/
def Color.blue : Color → ℚ
  | Color.rgb _ _ b => b
  | Color.rgba _ _ _ b => b

/-- Alpha channel of a color, when present. -/
def Color.alphaChannel : Color → Option ℚ
  | Color.rgb _ _ _ => none
  | Color.rgba _ _ _ a => some a

/-- Modelled from the spec: ridgeplot._color.utils.to_rgb (imported by
interpolation.py but not in the excerpt) converts a stop color to a canonical
RGB representation; an alpha channel, when present, is dropped by the
conversion (interpolation.py line 194 notes that interpolation can drop the
alpha channel). -/
def to_rgb (c : Color) : Color :=
  Color.rgb c.red c.green c.blue

/-- Modelled from the spec: ridgeplot._color.utils.apply_alpha (imported by
interpolation.py but not in the excerpt) rewrites a color so that it carries
the given alpha channel. -/
def apply_alpha (c : Color) (alpha : ℚ) : Color :=
  Color.rgba c.red c.green c.blue alpha

/-- Python round-half-to-even of a rational to an integer. -/
def pyRoundInt (q : ℚ) : ℤ :=
  if q - ⌊q⌋ < 1 / 2 then ⌊q⌋
  else if 1 / 2 < q - ⌊q⌋ then ⌊q⌋ + 1
  else if 2 ∣ ⌊q⌋ then ⌊q⌋ else ⌊q⌋ + 1

/-- Python round(q, ndigits) on a rational. -/
def pyRound (q : ℚ) (ndigits : ℕ) : ℚ :=
  (pyRoundInt (q * 10 ^ ndigits) : ℚ) / 10 ^ ndigits

/-- Modelled from the spec: ridgeplot._color.utils.round_color (imported by
interpolation.py but not in the excerpt) rounds every numeric channel of a
color to ndigits decimal digits. -/
def round_color (c : Color) (ndigits : ℕ) : Color :=
  match c with
  | Color.rgb r g b => Color.rgb (pyRound r ndigits) (pyRound g ndigits) (pyRound b ndigits)
  | Color.rgba r g b a =>
      Color.rgba (pyRound r ndigits) (pyRound g ndigits) (pyRound b ndigits) (pyRound a ndigits)

/-- Modelled from the spec: plotly.express.colors.find_intermediate_color
(the external charting collaborator) with colortype rgb linearly blends
lowcolor and highcolor channel-wise in RGB space at fraction intermed. -/
def find_intermediate_color (lowcolor highcolor : Color) (intermed : ℚ) : Color :=
  Color.rgb (lowcolor.red + (highcolor.red - lowcolor.red) * intermed)
    (lowcolor.green + (highcolor.green - lowcolor.green) * intermed)
    (lowcolor.blue + (highcolor.blue - lowcolor.blue) * intermed)

/-- InterpolationContext (interpolation.py lines 43-49). -/
structure InterpolationContext : Type where
  densities : Densities
  n_rows : ℕ
  n_traces : ℕ
  x_min : ℚ
  x_max : ℚ
  deriving DecidableEq

/-- InterpolationContext.from_densities as written in the excerpt
(interpolation.py lines 51-60).  Its body evaluates the call
get_xy_extrema(densities=densities), but the get_xy_extrema imported from
ridgeplot._utils declares its sole parameter as arrays (_utils.py line 31),
so Python raises a TypeError (unexpected keyword argument) before any
extremum is computed, for every argument value. -/
def from_densities (_densities : Densities) : Except RpError InterpolationContext :=
  Except.error RpError.typeErrorUnexpectedKw

/-- Modelled from the spec: the intended from_densities (spec section 4.2)
computes n_rows = row count, n_traces = total trace count, and the global
(x_min, x_max) by applying the extrema utility get_xy_extrema to every
trace's (x, y) pair across all rows (y extrema computed but unused). -/
def from_densities_spec (densities : Densities) : Except RpError InterpolationContext := do
  let e ← get_xy_extrema (densities.flatten.map (fun t => [t.map Prod.fst, t.map Prod.snd]))
  Except.ok ⟨densities, densities.length, (densities.map List.length).sum, e.1, e.2.1⟩

/-- The row-index strategy (interpolation.py lines 72-76).  Python raises
ZeroDivisionError when n_rows = 1 and some row is nonempty; rational division
by zero yields 0 instead, a deviation confined to that degenerate path, which
every theorem below excludes by hypothesis. -/
def _interpolate_row_index (ctx : InterpolationContext) : List (List ℚ) :=
  ctx.densities.enum.map
    (fun ir => List.replicate ir.2.length
      (((ctx.n_rows : ℚ) - 1 - (ir.1 : ℚ)) / ((ctx.n_rows : ℚ) - 1)))

/-- The running-counter loop of the trace-index strategy: k is the number of
traces of the preceding rows (the Python ith_trace counter). -/
def _interpolate_trace_index_go (n : ℕ) : Densities → ℕ → List (List ℚ)
  | [], _ => []
  | row :: rest, k =>
    ((List.range row.length).map
        (fun j => ((n : ℚ) - 1 - ((k + j : ℕ) : ℚ)) / ((n : ℚ) - 1)))
      :: _interpolate_trace_index_go n rest (k + row.length)

/-- The trace-index strategy (interpolation.py lines 79-88).  Degenerate
division by zero when n_traces = 1 behaves as in _interpolate_row_index. -/
def _interpolate_trace_index (ctx : InterpolationContext) : List (List ℚ) :=
  _interpolate_trace_index_go ctx.n_traces ctx.densities 0

/-- The trace-index-row-wise strategy (interpolation.py lines 91-95). -/
def _interpolate_trace_index_row_wise (ctx : InterpolationContext) : List (List ℚ) :=
  ctx.densities.map
    (fun row => (List.range row.length).map
      (fun j => ((row.length : ℚ) - 1 - (j : ℚ)) / ((row.length : ℚ) - 1)))

/-- The y-weighted mean sum(x_i * y_i) / sum(y_i) of a trace, as the mean
colormodes compute it from x, y = zip(*trace). -/
def trace_mean (t : DensityTrace) : ℚ :=
  (List.zipWith (fun a b => a * b) (t.map Prod.fst) (t.map Prod.snd)).sum / (t.map Prod.snd).sum

/-- The weighted-mean computation with its Python failure modes: unpacking
zip(*trace) of an empty trace raises ValueError, and sum(y) = 0 raises
ZeroDivisionError. -/
def trace_mean_checked (t : DensityTrace) : Except RpError ℚ :=
  if t.isEmpty then Except.error RpError.unpackEmpty
  else if (t.map Prod.snd).sum = 0 then Except.error RpError.zeroDivision
  else Except.ok (trace_mean t)

/-- The mean-minmax strategy (interpolation.py lines 98-108): each trace's
weighted mean, normalised against the context's global x_min and x_max. -/
def _interpolate_mean_minmax (ctx : InterpolationContext) : Except RpError (List (List ℚ)) :=
  ctx.densities.mapM
    (fun row => row.mapM
      (fun trace => do
        let m ← trace_mean_checked trace
        normalise_min_max m ctx.x_min ctx.x_max))

/-- The mean-means strategy (interpolation.py lines 111-123): per-trace
weighted means, then each mean normalised against the min and max of all the
computed means.  min(row) of an empty row and min([]) of an empty means list
raise, as in Python. -/
def _interpolate_mean_means (ctx : InterpolationContext) : Except RpError (List (List ℚ)) := do
  let means ← ctx.densities.mapM (fun row => row.mapM trace_mean_checked)
  if means.any List.isEmpty then Except.error RpError.minEmptySequence
  else if means.isEmpty then Except.error RpError.minEmptySequence
  else
    means.mapM (fun row => row.mapM (fun mean =>
      normalise_min_max mean (minD (means.map minD)) (maxD (means.map maxD))))

/-- The color used as the (unreachable) list-lookup default below. -/
def defaultColor : Color := Color.rgb 0 0 0

/-- interpolate_color (interpolation.py lines 135-157).  The Python locals
scale (the list of stop positions) and colors (the list of stop colors) are
inlined as colorscale.map Prod.fst and colorscale.map Prod.snd; the list
lookup colors[scale.index(q)] is List.getD with an unreachable default. -/
def interpolate_color (colorscale : ColorScale) (p : ℚ) : Except RpError Color :=
  if 0 ≤ p ∧ p ≤ 1 then
    if p ∈ colorscale.map Prod.fst then
      Except.ok ((colorscale.map Prod.snd).getD
        ((colorscale.map Prod.fst).indexOf p) defaultColor)
    else
      match ((colorscale.map Prod.fst).filter (fun s => p < s)).min?,
          ((colorscale.map Prod.fst).filter (fun s => s < p)).max? with
      | none, _ => Except.error RpError.minEmptySequence
      | some _, none => Except.error RpError.maxEmptySequence
      | some ceil, some floor =>
        (normalise_min_max p floor ceil).map
          (fun pn => find_intermediate_color
            (((colorscale.map Prod.snd).map to_rgb).getD
              ((colorscale.map Prod.fst).indexOf floor) defaultColor)
            (((colorscale.map Prod.snd).map to_rgb).getD
              ((colorscale.map Prod.fst).indexOf ceil) defaultColor) pn)
  else Except.error RpError.pOutOfRange

/-- A per-trace fill specification: either a gradient descriptor (colorscale,
horizontal span) or a solid fill color. -/
inductive FillSpec : Type where
  | fillgradient (colorscale : ColorScale) (start stop : ℚ)
  | fillcolor (c : Color)
  deriving DecidableEq

/-- The five solid colormode names, in the order of SOLID_COLORMODE_MAPS
(interpolation.py lines 126-132). -/
def solidColormodes : List String :=
  ["row-index", "trace-index", "trace-index-row-wise", "mean-minmax", "mean-means"]

/-- All names compute_trace_colors recognizes. -/
def validColormodes : List String := "fillgradient" :: solidColormodes

/-- The fixed part of the invalid-colormode message, enumerating the valid
names (interpolation.py lines 203-205). -/
def colormodeMsgPrefix : String :=
  "The colormode argument should be fillgradient or one of the solid colormodes (row-index, trace-index, trace-index-row-wise, mean-minmax, mean-means), got "

/-- The message of the invalid-colormode ValueError (interpolation.py lines
202-206). -/
def invalidColormodeMsg (got : String) : String :=
  colormodeMsgPrefix ++ got ++ " instead."

/-- The message carried by each RpError value (f-string fragments that
interpolate runtime values are kept only where a claim depends on them). -/
def errorMessage : RpError → String
  | RpError.expected2D _ => "Expected 2D array, got a different dimensionality instead."
  | RpError.emptyArray => "Cannot get extrema of an empty array."
  | RpError.emptyArraySequence => "Cannot get extrema of empty array sequence."
  | RpError.maxNotGreaterMin => "max_ should be greater than min_."
  | RpError.valOutOfBounds => "val is out of bounds."
  | RpError.pOutOfRange =>
      "The interpolation point p should be a float value between 0 and 1."
  | RpError.minEmptySequence => "min() arg is an empty sequence"
  | RpError.maxEmptySequence => "max() arg is an empty sequence"
  | RpError.unpackEmpty => "not enough values to unpack"
  | RpError.zeroDivision => "float division by zero"
  | RpError.typeErrorUnexpectedKw =>
      "get_xy_extrema() got an unexpected keyword argument"
  | RpError.invalidColormode got => invalidColormodeMsg got

/-- The opacity rewrite of compute_trace_colors (interpolation.py lines
171-173): when an opacity is given, every stop color has that alpha applied
up front. -/
def adjust_opacity (colorscale : ColorScale) (opacity : Option ℚ) : ColorScale :=
  match opacity with
  | some o => colorscale.map (fun vc => (vc.1, apply_alpha vc.2 o))
  | none => colorscale

/-- The local closure _get_fill_color of compute_trace_colors
(interpolation.py lines 191-200): resolve one solid color, reapply alpha when
an opacity was requested, and round the channels to 12 digits. -/
def _get_fill_color (colorscale : ColorScale) (opacity : Option ℚ) (p : ℚ) :
    Except RpError FillSpec := do
  let c ← interpolate_color colorscale p
  let c := match opacity with
    | some o => apply_alpha c o
    | none => c
  Except.ok (FillSpec.fillcolor (round_color c 12))

/-- compute_trace_colors (interpolation.py lines 160-209).  The colorscale
argument is taken already validated and coerced: validate_and_coerce_colorscale
lives outside the excerpt and is, modelled from the spec, the identity on a
canonical ColorScale.  The dict dispatch through SOLID_COLORMODE_MAPS is an
if-chain of exact name matches.  The Python version returns lazy generators;
eager evaluation is observably equivalent (spec section 5) and is used here,
so errors that Python raises only when the generators are consumed surface in
the returned Except value. -/
def compute_trace_colors (colorscale : ColorScale) (colormode : String) (opacity : Option ℚ)
    (interpolation_ctx : InterpolationContext) : Except RpError (List (List FillSpec)) :=
  let colorscale := adjust_opacity colorscale opacity
  if colormode = "fillgradient" then
    Except.ok (interpolation_ctx.densities.map
      (fun row => row.map (fun _ => FillSpec.fillgradient colorscale
        interpolation_ctx.x_min interpolation_ctx.x_max)))
  else if colormode = "row-index" then
    (_interpolate_row_index interpolation_ctx).mapM
      (fun row => row.mapM (_get_fill_color colorscale opacity))
  else if colormode = "trace-index" then
    (_interpolate_trace_index interpolation_ctx).mapM
      (fun row => row.mapM (_get_fill_color colorscale opacity))
  else if colormode = "trace-index-row-wise" then
    (_interpolate_trace_index_row_wise interpolation_ctx).mapM
      (fun row => row.mapM (_get_fill_color colorscale opacity))
  else if colormode = "mean-minmax" then do
    let ps ← _interpolate_mean_minmax interpolation_ctx
    ps.mapM (fun row => row.mapM (_get_fill_color colorscale opacity))
  else if colormode = "mean-means" then do
    let ps ← _interpolate_mean_means interpolation_ctx
    ps.mapM (fun row => row.mapM (_get_fill_color colorscale opacity))
  else Except.error (RpError.invalidColormode colormode)

/-- The post-validation colorscale invariant (spec section 3): stop positions
pairwise distinct and sorted ascending, with stops at positions 0 and 1. -/
def Canonical (cs : ColorScale) : Prop :=
  (cs.map Prod.fst).Chain' (fun a b => a < b)
    ∧ (0 : ℚ) ∈ cs.map Prod.fst ∧ (1 : ℚ) ∈ cs.map Prod.fst

/-- Whether an error is the invalid-colormode ValueError of
compute_trace_colors. -/
def RpError.isInvalidCM : RpError → Bool
  | RpError.invalidColormode _ => true
  | _ => false

/-- Every channel of a color is representable at 12 decimal digits: channel
times 10^12 is an integer.  Integer RGB channels (the ordinary 8-bit case)
are the special case n * 10^12. -/
def TwelveDigitChannels (c : Color) : Prop :=
  (∃ n : ℤ, c.red * 10 ^ (12 : ℕ) = n) ∧ (∃ n : ℤ, c.green * 10 ^ (12 : ℕ) = n)
    ∧ (∃ n : ℤ, c.blue * 10 ^ (12 : ℕ) = n)

/-- Lookup in a row-shaped nested list: entry j of row i. -/
def nested_get {α : Type} (l : List (List α)) (i j : ℕ) : Option α :=
  (l[i]?).bind (fun row => row[j]?)

/-- Test fixture: a black-to-white colorscale. -/
def csBW : ColorScale := [(0, Color.rgb 0 0 0), (1, Color.rgb 255 255 255)]

/-- Test fixture: one row holding one trace with x = [0, 1, 2] and uniform
unit weights y = [1, 1, 1]. -/
def dUnit : Densities := [[[(0, 1), (1, 1), (2, 1)]]]

/-- Test fixture: two rows of one trace each, with single points at x = 0 and
x = 2. -/
def dTwo : Densities := [[[(0, 1)]], [[(2, 1)]]]

/-- Test fixture: a canonical colorscale (distinct ascending stop positions
0 and 1) whose stop colors carry the channel value 1/3, which no 12-digit
decimal represents; the second stop is offset by 3/10^12. -/
def cs5 : ColorScale :=
  [(0, Color.rgb (1 / 3) (1 / 3) (1 / 3)),
   (1, Color.rgb (1 / 3 + 3 / 10 ^ 12) (1 / 3 + 3 / 10 ^ 12) (1 / 3 + 3 / 10 ^ 12))]

/-- The nested per-trace weighted means (the means local of the mean-means
strategy). -/
def traceMeans (d : Densities) : List (List ℚ) :=
  d.map (fun row => row.map trace_mean)

/-- The min_mean local of the mean-means strategy. -/
def minMean (d : Densities) : ℚ := minD ((traceMeans d).map minD)

/-- The max_mean local of the mean-means strategy. -/
def maxMean (d : Densities) : ℚ := maxD ((traceMeans d).map maxD)

/-! Helper lemmas about the embedding. -/

@[simp]
theorem except_bind_ok {α β : Type} (v : α) (f : α → Except RpError β) :
    (Except.ok v >>= f) = f v := rfl

@[simp]
theorem except_bind_error {α β : Type} (e : RpError) (f : α → Except RpError β) :
    ((Except.error e : Except RpError α) >>= f) = Except.error e := rfl

@[simp]
theorem except_map_ok {α β : Type} (v : α) (f : α → β) :
    (Except.ok v : Except RpError α).map f = Except.ok (f v) := rfl

@[simp]
theorem except_map_error {α β : Type} (e : RpError) (f : α → β) :
    (Except.error e : Except RpError α).map f = Except.error e := rfl

theorem foldl_min_le (l : List ℚ) (a : ℚ) :
    l.foldl min a ≤ a ∧ ∀ b ∈ l, l.foldl min a ≤ b := by
  induction l generalizing a with
  | nil => simp
  | cons x xs ih =>
    simp only [List.foldl_cons]
    refine ⟨le_trans (ih (min a x)).1 (min_le_left a x), ?_⟩
    intro b hb
    rcases List.mem_cons.mp hb with h | h
    · subst h
      exact le_trans (ih (min a b)).1 (min_le_right a b)
    · exact (ih (min a x)).2 b h

theorem foldl_min_mem (l : List ℚ) (a : ℚ) :
    l.foldl min a = a ∨ l.foldl min a ∈ l := by
  induction l generalizing a with
  | nil => simp
  | cons x xs ih =>
    simp only [List.foldl_cons]
    rcases ih (min a x) with h | h
    · rcases min_choice a x with hm | hm
      · exact Or.inl (by rw [h, hm])
      · exact Or.inr (by rw [h, hm]; exact List.mem_cons_self x xs)
    · exact Or.inr (List.mem_cons_of_mem x h)

theorem foldl_max_le (l : List ℚ) (a : ℚ) :
    a ≤ l.foldl max a ∧ ∀ b ∈ l, b ≤ l.foldl max a := by
  induction l generalizing a with
  | nil => simp
  | cons x xs ih =>
    simp only [List.foldl_cons]
    refine ⟨le_trans (le_max_left a x) (ih (max a x)).1, ?_⟩
    intro b hb
    rcases List.mem_cons.mp hb with h | h
    · subst h
      exact le_trans (le_max_right a b) (ih (max a b)).1
    · exact (ih (max a x)).2 b h

theorem foldl_max_mem (l : List ℚ) (a : ℚ) :
    l.foldl max a = a ∨ l.foldl max a ∈ l := by
  induction l generalizing a with
  | nil => simp
  | cons x xs ih =>
    simp only [List.foldl_cons]
    rcases ih (max a x) with h | h
    · rcases max_choice a x with hm | hm
      · exact Or.inl (by rw [h, hm])
      · exact Or.inr (by rw [h, hm]; exact List.mem_cons_self x xs)
    · exact Or.inr (List.mem_cons_of_mem x h)

theorem minD_cons (a : ℚ) (as : List ℚ) : minD (a :: as) = as.foldl min a := rfl

theorem maxD_cons (a : ℚ) (as : List ℚ) : maxD (a :: as) = as.foldl max a := rfl

theorem minD_mem {l : List ℚ} (h : l ≠ []) : minD l ∈ l := by
  match l, h with
  | a :: as, _ =>
    rw [minD_cons]
    rcases foldl_min_mem as a with h | h
    · rw [h]; exact List.mem_cons_self a as
    · exact List.mem_cons_of_mem a h

theorem minD_le {l : List ℚ} {b : ℚ} (hb : b ∈ l) : minD l ≤ b := by
  match l, hb with
  | a :: as, hb =>
    rw [minD_cons]
    rcases List.mem_cons.mp hb with h | h
    · rw [h]; exact (foldl_min_le as a).1
    · exact (foldl_min_le as a).2 b h

theorem maxD_mem {l : List ℚ} (h : l ≠ []) : maxD l ∈ l := by
  match l, h with
  | a :: as, _ =>
    rw [maxD_cons]
    rcases foldl_max_mem as a with h | h
    · rw [h]; exact List.mem_cons_self a as
    · exact List.mem_cons_of_mem a h

theorem le_maxD {l : List ℚ} {b : ℚ} (hb : b ∈ l) : b ≤ maxD l := by
  match l, hb with
  | a :: as, hb =>
    rw [maxD_cons]
    rcases List.mem_cons.mp hb with h | h
    · rw [h]; exact (foldl_max_le as a).1
    · exact (foldl_max_le as a).2 b h

theorem mapM_ok_map {α β : Type} (f : α → Except RpError β) (g : α → β) :
    ∀ (l : List α), (∀ x ∈ l, f x = Except.ok (g x)) → l.mapM f = Except.ok (l.map g) := by
  intro l
  induction l with
  | nil => intro _; rfl
  | cons x xs ih =>
    intro h
    rw [List.mapM_cons, h x (List.mem_cons_self x xs),
      ih (fun y hy => h y (List.mem_cons_of_mem x hy))]
    rfl

theorem mapM_error_mem {α β : Type} (f : α → Except RpError β) :
    ∀ (l : List α) (e : RpError), l.mapM f = Except.error e → ∃ x ∈ l, f x = Except.error e := by
  intro l
  induction l with
  | nil =>
    intro e h
    rw [List.mapM_nil] at h
    cases h
  | cons x xs ih =>
    intro e h
    rw [List.mapM_cons] at h
    cases hfx : f x with
    | error e1 =>
      rw [hfx, except_bind_error] at h
      cases h
      exact ⟨x, List.mem_cons_self x xs, hfx⟩
    | ok y =>
      rw [hfx, except_bind_ok] at h
      cases hrest : xs.mapM f with
      | error e2 =>
        rw [hrest, except_bind_error] at h
        cases h
        obtain ⟨z, hz, hfz⟩ := ih _ hrest
        exact ⟨z, List.mem_cons_of_mem x hz, hfz⟩
      | ok ys =>
        rw [hrest, except_bind_ok] at h
        cases h

/-! Claim C1. -/

/-- C1: the claim states that from_densities succeeds on every well-formed
dataset; the code instead raises a TypeError for every argument, because it
passes the keyword densities= to get_xy_extrema, whose sole parameter is
named arrays.  This theorem evaluates the embedded code at the concrete
well-formed failing input [[trace]] with trace x = [0, 1, 2], y = [1, 1, 1]. -/
theorem C1_from_densities_always_raises :
    from_densities [[[(0, 1), (1, 1), (2, 1)]]] = Except.error RpError.typeErrorUnexpectedKw :=
  rfl

/-! Unfolding lemmas for interpolate_color. -/

theorem interpolate_color_out_of_range {cs : ColorScale} {p : ℚ} (h : ¬ (0 ≤ p ∧ p ≤ 1)) :
    interpolate_color cs p = Except.error RpError.pOutOfRange := by
  unfold interpolate_color
  rw [if_neg h]

theorem interpolate_color_stop {cs : ColorScale} {p : ℚ} (h : 0 ≤ p ∧ p ≤ 1)
    (hmem : p ∈ cs.map Prod.fst) :
    interpolate_color cs p =
      Except.ok ((cs.map Prod.snd).getD ((cs.map Prod.fst).indexOf p) defaultColor) := by
  unfold interpolate_color
  rw [if_pos h, if_pos hmem]

theorem interpolate_color_no_ceil {cs : ColorScale} {p : ℚ} (h : 0 ≤ p ∧ p ≤ 1)
    (hmem : p ∉ cs.map Prod.fst)
    (hmin : ((cs.map Prod.fst).filter (fun s => p < s)).min? = none) :
    interpolate_color cs p = Except.error RpError.minEmptySequence := by
  unfold interpolate_color
  rw [if_pos h, if_neg hmem, hmin]

theorem interpolate_color_no_floor {cs : ColorScale} {p : ℚ} {ceil : ℚ} (h : 0 ≤ p ∧ p ≤ 1)
    (hmem : p ∉ cs.map Prod.fst)
    (hmin : ((cs.map Prod.fst).filter (fun s => p < s)).min? = some ceil)
    (hmax : ((cs.map Prod.fst).filter (fun s => s < p)).max? = none) :
    interpolate_color cs p = Except.error RpError.maxEmptySequence := by
  unfold interpolate_color
  rw [if_pos h, if_neg hmem, hmin, hmax]

theorem interpolate_color_blend {cs : ColorScale} {p ceil floor : ℚ} (h : 0 ≤ p ∧ p ≤ 1)
    (hmem : p ∉ cs.map Prod.fst)
    (hmin : ((cs.map Prod.fst).filter (fun s => p < s)).min? = some ceil)
    (hmax : ((cs.map Prod.fst).filter (fun s => s < p)).max? = some floor) :
    interpolate_color cs p =
      (normalise_min_max p floor ceil).map
        (fun pn => find_intermediate_color
          (((cs.map Prod.snd).map to_rgb).getD
            ((cs.map Prod.fst).indexOf floor) defaultColor)
          (((cs.map Prod.snd).map to_rgb).getD
            ((cs.map Prod.fst).indexOf ceil) defaultColor) pn) := by
  unfold interpolate_color
  rw [if_pos h, if_neg hmem, hmin, hmax]

/-- The colors[scale.index(q)] lookup resolves to the color of the first stop
at position q; with pairwise-distinct positions, to the color of the unique
stop at q (stated for a lookup list transformed element-wise by g). -/
theorem lookup_map_getD (g : Color → Color) (d : Color) :
    ∀ (cs : ColorScale) (q : ℚ) (c : Color), (cs.map Prod.fst).Nodup → (q, c) ∈ cs →
      ((cs.map Prod.snd).map g).getD ((cs.map Prod.fst).indexOf q) d = g c := by
  intro cs
  induction cs with
  | nil =>
    intro q c _ hmem
    cases hmem
  | cons vc rest ih =>
    intro q c hnd hmem
    obtain ⟨q0, c0⟩ := vc
    simp only [List.map_cons] at hnd ⊢
    rcases List.mem_cons.mp hmem with heq | hmem2
    · injection heq with h1 h2
      subst h1
      subst h2
      rw [List.indexOf_cons_self]
      rfl
    · have hq : q ∈ rest.map Prod.fst := List.mem_map.mpr ⟨(q, c), hmem2, rfl⟩
      have hne : q0 ≠ q := by
        rintro rfl
        exact (List.nodup_cons.mp hnd).1 hq
      rw [List.indexOf_cons_ne _ hne]
      simp only [Nat.succ_eq_add_one, List.getD_cons_succ]
      exact ih q c (List.nodup_cons.mp hnd).2 hmem2

theorem lookup_getD (d : Color) (cs : ColorScale) (q : ℚ) (c : Color)
    (hnd : (cs.map Prod.fst).Nodup) (hmem : (q, c) ∈ cs) :
    (cs.map Prod.snd).getD ((cs.map Prod.fst).indexOf q) d = c := by
  have h := lookup_map_getD id d cs q c hnd hmem
  rwa [List.map_id] at h

/-! Claim C3. -/

/-- C3: when p lies in [0, 1] and equals the position of a stop of a
colorscale whose stop positions are pairwise distinct, interpolate_color
returns exactly that stop's stored color, unchanged: no blending, no RGB
conversion, no rounding. -/
theorem C3_exact_stop_returns_stored_color (cs : ColorScale) (p : ℚ) (c : Color)
    (hnd : (cs.map Prod.fst).Nodup) (hmem : (p, c) ∈ cs) (h0 : 0 ≤ p) (h1 : p ≤ 1) :
    interpolate_color cs p = Except.ok c := by
  have hp : p ∈ cs.map Prod.fst := List.mem_map.mpr ⟨(p, c), hmem, rfl⟩
  rw [interpolate_color_stop ⟨h0, h1⟩ hp, lookup_getD defaultColor cs p c hnd hmem]

/-- C3 witness: a concrete colorscale whose stop at position 1 stores an RGBA
color; interpolate_color returns it untouched (alpha intact, no rounding). -/
theorem C3_witness :
    interpolate_color [(0, Color.rgb 0 0 0), (1, Color.rgba 10 20 30 (1 / 3))] 1 =
      Except.ok (Color.rgba 10 20 30 (1 / 3)) :=
  C3_exact_stop_returns_stored_color
    [(0, Color.rgb 0 0 0), (1, Color.rgba 10 20 30 (1 / 3))] 1 (Color.rgba 10 20 30 (1 / 3))
    (by with_unfolding_all decide) (by with_unfolding_all decide)
    (by with_unfolding_all decide) (by with_unfolding_all decide)

/-! Claim C4. -/

theorem normalise_ok {v mn mx : ℚ} (h : mn < mx) (h1 : mn ≤ v) (h2 : v ≤ mx) :
    normalise_min_max v mn mx = Except.ok ((v - mn) / (mx - mn)) := by
  unfold normalise_min_max
  rw [if_neg (not_le.mpr h), if_neg (not_not_intro ⟨h1, h2⟩)]

theorem rat_min?_mem {l : List ℚ} {a : ℚ} (h : l.min? = some a) : a ∈ l :=
  List.min?_mem (fun x y => min_choice x y) h

theorem rat_max?_mem {l : List ℚ} {a : ℚ} (h : l.max? = some a) : a ∈ l :=
  List.max?_mem (fun x y => max_choice x y) h

theorem mem_filter_lt {l : List ℚ} {p s : ℚ} (h : s ∈ l.filter (fun x => p < x)) : p < s := by
  have h2 := (List.mem_filter.mp h).2
  simpa using h2

theorem mem_filter_gt {l : List ℚ} {p s : ℚ} (h : s ∈ l.filter (fun x => x < p)) : s < p := by
  have h2 := (List.mem_filter.mp h).2
  simpa using h2

/-- C4: on a canonical colorscale, interpolate_color fails exactly when p is
outside [0, 1]; inside [0, 1] it always returns a color, so the two
missing-bracket failure branches are unreachable under the colorscale
invariant. -/
theorem C4_interpolate_color_error_iff_out_of_range (cs : ColorScale) (hc : Canonical cs)
    (p : ℚ) :
    (∃ e, interpolate_color cs p = Except.error e) ↔ ¬ (0 ≤ p ∧ p ≤ 1) := by
  obtain ⟨_, h0m, h1m⟩ := hc
  constructor
  · rintro ⟨e, he⟩ hin
    by_cases hmem : p ∈ cs.map Prod.fst
    · rw [interpolate_color_stop hin hmem] at he
      cases he
    · have hp0 : p ≠ 0 := fun h => hmem (h ▸ h0m)
      have hp1 : p ≠ 1 := fun h => hmem (h ▸ h1m)
      have h0 : 0 < p := lt_of_le_of_ne hin.1 (Ne.symm hp0)
      have h1 : p < 1 := lt_of_le_of_ne hin.2 hp1
      have hmem1 : (1 : ℚ) ∈ (cs.map Prod.fst).filter (fun s => p < s) :=
        List.mem_filter.mpr ⟨h1m, by simpa using h1⟩
      cases hminq : ((cs.map Prod.fst).filter (fun s => p < s)).min? with
      | none => exact (List.ne_nil_of_mem hmem1) (List.min?_eq_none_iff.mp hminq)
      | some ceil =>
        have hmem0 : (0 : ℚ) ∈ (cs.map Prod.fst).filter (fun s => s < p) :=
          List.mem_filter.mpr ⟨h0m, by simpa using h0⟩
        cases hmaxq : ((cs.map Prod.fst).filter (fun s => s < p)).max? with
        | none => exact (List.ne_nil_of_mem hmem0) (List.max?_eq_none_iff.mp hmaxq)
        | some floor =>
          have hpc : p < ceil := mem_filter_lt (rat_min?_mem hminq)
          have hfp : floor < p := mem_filter_gt (rat_max?_mem hmaxq)
          rw [interpolate_color_blend hin hmem hminq hmaxq,
            normalise_ok (lt_trans hfp hpc) (le_of_lt hfp) (le_of_lt hpc),
            except_map_ok] at he
          cases he
  · intro hout
    exact ⟨RpError.pOutOfRange, interpolate_color_out_of_range hout⟩

/-- C4 witness: on the concrete canonical black-to-white colorscale, p = 2
produces an error. -/
theorem C4_witness :
    ∃ e, interpolate_color csBW 2 = Except.error e :=
  (C4_interpolate_color_error_iff_out_of_range csBW
    (by unfold Canonical csBW; refine ⟨?_, ?_, ?_⟩ <;> simp) 2).mpr
    (by with_unfolding_all decide)

/-! Claim C5. -/

theorem pyRoundInt_bounds (q : ℚ) : ⌊q⌋ ≤ pyRoundInt q ∧ pyRoundInt q ≤ ⌈q⌉ := by
  unfold pyRoundInt
  split_ifs with h1 h2 h3
  · exact ⟨le_refl _, Int.floor_le_ceil q⟩
  · have hlt : (⌊q⌋ : ℚ) < q := by linarith
    exact ⟨by omega, Int.add_one_le_ceil_iff.mpr hlt⟩
  · exact ⟨le_refl _, Int.floor_le_ceil q⟩
  · have heq : q - ⌊q⌋ = 1 / 2 := le_antisymm (not_lt.mp h2) (not_lt.mp h1)
    have hlt : (⌊q⌋ : ℚ) < q := by linarith
    exact ⟨by omega, Int.add_one_le_ceil_iff.mpr hlt⟩

theorem pyRoundInt_between {L H : ℤ} {q : ℚ} (hl : (L : ℚ) ≤ q) (hh : q ≤ (H : ℚ)) :
    L ≤ pyRoundInt q ∧ pyRoundInt q ≤ H :=
  ⟨le_trans (Int.le_floor.mpr hl) (pyRoundInt_bounds q).1,
   le_trans (pyRoundInt_bounds q).2 (Int.ceil_le.mpr hh)⟩

theorem pyRound_between_rep {l h q : ℚ} {L H : ℤ}
    (hl : l * 10 ^ (12 : ℕ) = (L : ℚ)) (hh : h * 10 ^ (12 : ℕ) = (H : ℚ))
    (h1 : l ≤ q) (h2 : q ≤ h) :
    l ≤ pyRound q 12 ∧ pyRound q 12 ≤ h := by
  have hpow : (0 : ℚ) < 10 ^ (12 : ℕ) := by positivity
  have hq1 : (L : ℚ) ≤ q * 10 ^ (12 : ℕ) := by
    rw [← hl]
    nlinarith
  have hq2 : q * 10 ^ (12 : ℕ) ≤ (H : ℚ) := by
    rw [← hh]
    nlinarith
  obtain ⟨hb1, hb2⟩ := pyRoundInt_between hq1 hq2
  unfold pyRound
  constructor
  · rw [le_div_iff₀ hpow, hl]
    exact_mod_cast hb1
  · rw [div_le_iff₀ hpow, hh]
    exact_mod_cast hb2

theorem lin_blend_between {l h t : ℚ} (h0 : 0 ≤ t) (h1 : t ≤ 1) :
    min l h ≤ l + (h - l) * t ∧ l + (h - l) * t ≤ max l h := by
  rcases le_total l h with hlh | hlh
  · rw [min_eq_left hlh, max_eq_right hlh]
    constructor <;> nlinarith
  · rw [min_eq_right hlh, max_eq_left hlh]
    constructor <;> nlinarith

theorem rat_min?_eq_some_iff {l : List ℚ} {a : ℚ} :
    l.min? = some a ↔ a ∈ l ∧ ∀ b ∈ l, a ≤ b := by
  haveI : Std.Antisymm ((· : ℚ) ≤ ·) := ⟨fun h1 h2 => le_antisymm h1 h2⟩
  exact List.min?_eq_some_iff (fun x => le_refl x) (fun x y => min_choice x y)
    (fun _ _ _ => le_min_iff)

theorem rat_max?_eq_some_iff {l : List ℚ} {a : ℚ} :
    l.max? = some a ↔ a ∈ l ∧ ∀ b ∈ l, b ≤ a := by
  haveI : Std.Antisymm ((· : ℚ) ≤ ·) := ⟨fun h1 h2 => le_antisymm h1 h2⟩
  exact List.max?_eq_some_iff (fun x => le_refl x) (fun x y => max_choice x y)
    (fun _ _ _ => max_le_iff)

/-- A between-bracket bound for one channel: the blended channel value,
rounded to 12 digits, stays between the two stop channels, provided both are
representable at 12 decimal digits. -/
theorem channel_round_between {lch hch t : ℚ}
    (hil : ∃ n : ℤ, lch * 10 ^ (12 : ℕ) = n) (hih : ∃ n : ℤ, hch * 10 ^ (12 : ℕ) = n)
    (h0 : 0 ≤ t) (h1 : t ≤ 1) :
    min lch hch ≤ pyRound (lch + (hch - lch) * t) 12
      ∧ pyRound (lch + (hch - lch) * t) 12 ≤ max lch hch := by
  obtain ⟨L, hL⟩ := hil
  obtain ⟨H, hH⟩ := hih
  obtain ⟨hbl, hbh⟩ := lin_blend_between (l := lch) (h := hch) h0 h1
  rcases le_total lch hch with hc | hc
  · rw [min_eq_left hc] at hbl ⊢
    rw [max_eq_right hc] at hbh ⊢
    exact pyRound_between_rep hL hH hbl hbh
  · rw [min_eq_right hc] at hbl ⊢
    rw [max_eq_left hc] at hbh ⊢
    exact pyRound_between_rep hH hL hbl hbh

set_option maxRecDepth 2000 in
/-- C5 counterexample: the claim as stated over every valid colorscale is
false.  The colorscale cs5 is canonical (distinct ascending stop positions
0 and 1), but its stop colors carry the channel value 1/3, which no 12-digit
decimal represents.  At p = 1/25 interpolate_color succeeds with the blended
channel 1/3 + 3/(25 * 10^12), yet that channel's 12-digit rounding,
0.333333333333, falls strictly below both bracketing stops' channels (1/3
and 1/3 + 3/10^12) instead of lying between them. -/
theorem C5_counterexample :
    interpolate_color cs5 (1 / 25)
      = Except.ok (Color.rgb (25000000000009 / 75000000000000)
          (25000000000009 / 75000000000000) (25000000000009 / 75000000000000))
    ∧ ¬ (min ((1 : ℚ) / 3) (1 / 3 + 3 / 10 ^ 12)
        ≤ (round_color (Color.rgb (25000000000009 / 75000000000000)
            (25000000000009 / 75000000000000) (25000000000009 / 75000000000000)) 12).red) := by
  constructor
  · have hmem : (1 / 25 : ℚ) ∉ cs5.map Prod.fst := by
      with_unfolding_all decide
    have hmin : ((cs5.map Prod.fst).filter (fun s => (1 / 25 : ℚ) < s)).min? = some 1 := by
      with_unfolding_all decide
    have hmax : ((cs5.map Prod.fst).filter (fun s => s < (1 / 25 : ℚ))).max? = some 0 := by
      with_unfolding_all decide
    have hnd : (cs5.map Prod.fst).Nodup := by
      with_unfolding_all decide
    have hmem0 : ((0 : ℚ), Color.rgb (1 / 3) (1 / 3) (1 / 3)) ∈ cs5 :=
      List.mem_cons_self _ _
    have hmem1 : ((1 : ℚ), Color.rgb (1 / 3 + 3 / 10 ^ 12) (1 / 3 + 3 / 10 ^ 12)
        (1 / 3 + 3 / 10 ^ 12)) ∈ cs5 :=
      List.mem_cons_of_mem _ (List.mem_cons_self _ _)
    rw [interpolate_color_blend (by norm_num) hmem hmin hmax,
      normalise_ok (by norm_num) (by norm_num) (by norm_num), except_map_ok,
      lookup_map_getD to_rgb defaultColor cs5 0 (Color.rgb (1 / 3) (1 / 3) (1 / 3)) hnd hmem0,
      lookup_map_getD to_rgb defaultColor cs5 1 (Color.rgb (1 / 3 + 3 / 10 ^ 12)
        (1 / 3 + 3 / 10 ^ 12) (1 / 3 + 3 / 10 ^ 12)) hnd hmem1]
    simp only [to_rgb, find_intermediate_color, Color.red, Color.green, Color.blue,
      Except.ok.injEq, Color.rgb.injEq]
    norm_num
  · show ¬ (min ((1 : ℚ) / 3) (1 / 3 + 3 / 10 ^ 12)
        ≤ pyRound (25000000000009 / 75000000000000) 12)
    have h1 : (25000000000009 / 75000000000000 : ℚ) * 10 ^ (12 : ℕ)
        = 25000000000009 / 75 := by
      norm_num
    have h2 : pyRoundInt (25000000000009 / 75) = 333333333333 := by
      with_unfolding_all decide
    rw [show pyRound (25000000000009 / 75000000000000) 12
        = (pyRoundInt ((25000000000009 / 75000000000000 : ℚ) * 10 ^ (12 : ℕ)) : ℚ)
            / 10 ^ (12 : ℕ) from rfl, h1, h2]
    rw [min_eq_left (by norm_num)]
    norm_num

/-- C5, amended: for p in [0, 1] that is not a stop position of a colorscale
with pairwise-distinct stop positions, where (fl, cfl) is the largest stop
below p and (ce, cce) the smallest stop above p and both stop colors have
channels representable at 12 decimal digits (integer RGB channels being the
ordinary case), interpolate_color succeeds and each RGB channel of its
result, after the 12-digit rounding, lies between the corresponding channels
of the two bracketing stops. -/
theorem C5_blend_channels_between_brackets (cs : ColorScale) (p fl ce : ℚ) (cfl cce : Color)
    (hnd : (cs.map Prod.fst).Nodup)
    (h0 : 0 ≤ p) (h1 : p ≤ 1) (hmem : p ∉ cs.map Prod.fst)
    (hflmem : (fl, cfl) ∈ cs) (hcemem : (ce, cce) ∈ cs)
    (hfl : fl < p) (hce : p < ce)
    (hflmax : ∀ s ∈ cs.map Prod.fst, s < p → s ≤ fl)
    (hcemin : ∀ s ∈ cs.map Prod.fst, p < s → ce ≤ s)
    (hint_fl : TwelveDigitChannels cfl) (hint_ce : TwelveDigitChannels cce) :
    ∃ col, interpolate_color cs p = Except.ok col
      ∧ min cfl.red cce.red ≤ (round_color col 12).red
      ∧ (round_color col 12).red ≤ max cfl.red cce.red
      ∧ min cfl.green cce.green ≤ (round_color col 12).green
      ∧ (round_color col 12).green ≤ max cfl.green cce.green
      ∧ min cfl.blue cce.blue ≤ (round_color col 12).blue
      ∧ (round_color col 12).blue ≤ max cfl.blue cce.blue := by
  have hcein : ce ∈ (cs.map Prod.fst).filter (fun s => p < s) :=
    List.mem_filter.mpr ⟨List.mem_map.mpr ⟨(ce, cce), hcemem, rfl⟩, by simpa using hce⟩
  have hflin : fl ∈ (cs.map Prod.fst).filter (fun s => s < p) :=
    List.mem_filter.mpr ⟨List.mem_map.mpr ⟨(fl, cfl), hflmem, rfl⟩, by simpa using hfl⟩
  have hminq : ((cs.map Prod.fst).filter (fun s => p < s)).min? = some ce := by
    refine rat_min?_eq_some_iff.mpr ⟨hcein, ?_⟩
    intro b hb
    exact hcemin b (List.mem_filter.mp hb).1 (mem_filter_lt hb)
  have hmaxq : ((cs.map Prod.fst).filter (fun s => s < p)).max? = some fl := by
    refine rat_max?_eq_some_iff.mpr ⟨hflin, ?_⟩
    intro b hb
    exact hflmax b (List.mem_filter.mp hb).1 (mem_filter_gt hb)
  have hlo := lookup_map_getD to_rgb defaultColor cs fl cfl hnd hflmem
  have hhi := lookup_map_getD to_rgb defaultColor cs ce cce hnd hcemem
  rw [interpolate_color_blend ⟨h0, h1⟩ hmem hminq hmaxq,
    normalise_ok (lt_trans hfl hce) (le_of_lt hfl) (le_of_lt hce), except_map_ok, hlo, hhi]
  set t : ℚ := (p - fl) / (ce - fl) with ht
  have hden : (0 : ℚ) < ce - fl := by linarith
  have ht0 : 0 ≤ t := div_nonneg (by linarith) (le_of_lt hden)
  have ht1 : t ≤ 1 := by
    rw [ht, div_le_one hden]
    linarith
  refine ⟨_, rfl, ?_, ?_, ?_, ?_, ?_, ?_⟩
  · exact (channel_round_between hint_fl.1 hint_ce.1 ht0 ht1).1
  · exact (channel_round_between hint_fl.1 hint_ce.1 ht0 ht1).2
  · exact (channel_round_between hint_fl.2.1 hint_ce.2.1 ht0 ht1).1
  · exact (channel_round_between hint_fl.2.1 hint_ce.2.1 ht0 ht1).2
  · exact (channel_round_between hint_fl.2.2 hint_ce.2.2 ht0 ht1).1
  · exact (channel_round_between hint_fl.2.2 hint_ce.2.2 ht0 ht1).2

/-- C5 witness: the black-to-white colorscale at p = 1/3; the rounded blend
85 per channel lies between 0 and 255. -/
theorem C5_witness :
    ∃ col, interpolate_color csBW (1 / 3) = Except.ok col
      ∧ min (Color.rgb 0 0 0).red (Color.rgb 255 255 255).red ≤ (round_color col 12).red
      ∧ (round_color col 12).red ≤ max (Color.rgb 0 0 0).red (Color.rgb 255 255 255).red
      ∧ min (Color.rgb 0 0 0).green (Color.rgb 255 255 255).green ≤ (round_color col 12).green
      ∧ (round_color col 12).green ≤ max (Color.rgb 0 0 0).green (Color.rgb 255 255 255).green
      ∧ min (Color.rgb 0 0 0).blue (Color.rgb 255 255 255).blue ≤ (round_color col 12).blue
      ∧ (round_color col 12).blue ≤ max (Color.rgb 0 0 0).blue (Color.rgb 255 255 255).blue :=
  C5_blend_channels_between_brackets csBW (1 / 3) 0 1 (Color.rgb 0 0 0) (Color.rgb 255 255 255)
    (by with_unfolding_all decide) (by with_unfolding_all decide)
    (by with_unfolding_all decide) (by with_unfolding_all decide)
    (by with_unfolding_all decide) (by with_unfolding_all decide)
    (by with_unfolding_all decide) (by with_unfolding_all decide)
    (by with_unfolding_all decide) (by with_unfolding_all decide)
    ⟨⟨0, by norm_num [Color.red]⟩, ⟨0, by norm_num [Color.green]⟩,
      ⟨0, by norm_num [Color.blue]⟩⟩
    ⟨⟨255000000000000, by norm_num [Color.red]⟩, ⟨255000000000000, by norm_num [Color.green]⟩,
      ⟨255000000000000, by norm_num [Color.blue]⟩⟩

/-! Claim C10. -/

theorem gxeCollect_cons_pair (xs ys : List ℚ) (rest : List (List (List ℚ))) :
    gxeCollect ([xs, ys] :: rest) =
      (if xs.length = 0 ∨ ys.length = 0 then Except.error RpError.emptyArray
        else do
          let r ← gxeCollect rest
          Except.ok (xs ++ r.1, ys ++ r.2)) := rfl

theorem gxeCollect_ok (arrays : List (List (List ℚ)))
    (h : ∀ a ∈ arrays, a.length = 2 ∧ ∀ m ∈ a, m ≠ []) :
    ∃ x y, gxeCollect arrays = Except.ok (x, y) ∧ (x = [] ↔ arrays = [])
      ∧ (y = [] ↔ arrays = []) := by
  induction arrays with
  | nil => exact ⟨[], [], rfl, by simp, by simp⟩
  | cons a rest ih =>
    obtain ⟨hlen, hmem⟩ := h a (List.mem_cons_self a rest)
    obtain ⟨xs, ys, rfl⟩ := List.length_eq_two.mp hlen
    obtain ⟨x, y, hok, _, _⟩ := ih (fun b hb => h b (List.mem_cons_of_mem _ hb))
    have hxs : xs ≠ [] := hmem xs (by simp)
    have hys : ys ≠ [] := hmem ys (by simp)
    refine ⟨xs ++ x, ys ++ y, ?_, by simp [hxs], by simp [hys]⟩
    have hcond : ¬ (xs.length = 0 ∨ ys.length = 0) := by
      simp [List.length_eq_zero, hxs, hys]
    rw [gxeCollect_cons_pair, if_neg hcond, hok, except_bind_ok]

theorem gxeCollect_error (arrays : List (List (List ℚ)))
    (h : ¬ ∀ a ∈ arrays, a.length = 2 ∧ ∀ m ∈ a, m ≠ []) :
    ∃ e, gxeCollect arrays = Except.error e := by
  induction arrays with
  | nil => exact absurd (by simp) h
  | cons a rest ih =>
    rcases a with _ | ⟨m1, _ | ⟨m2, _ | ⟨m3, ms⟩⟩⟩
    · exact ⟨RpError.expected2D ([] : List (List ℚ)).length, rfl⟩
    · exact ⟨RpError.expected2D [m1].length, rfl⟩
    · by_cases hxs : m1.length = 0 ∨ m2.length = 0
      · exact ⟨RpError.emptyArray, by rw [gxeCollect_cons_pair, if_pos hxs]⟩
      · have hm1 : m1 ≠ [] := by
          rintro rfl
          exact hxs (Or.inl rfl)
        have hm2 : m2 ≠ [] := by
          rintro rfl
          exact hxs (Or.inr rfl)
        have hrest : ¬ ∀ b ∈ rest, b.length = 2 ∧ ∀ m ∈ b, m ≠ [] := by
          intro hall
          apply h
          intro b hb
          rcases List.mem_cons.mp hb with hb | hb
          · subst hb
            refine ⟨rfl, ?_⟩
            intro m hm
            rcases List.mem_pair.mp hm with rfl | rfl
            · exact hm1
            · exact hm2
          · exact hall b hb
        obtain ⟨e, he⟩ := ih hrest
        exact ⟨e, by rw [gxeCollect_cons_pair, if_neg hxs, he, except_bind_error]⟩
    · exact ⟨RpError.expected2D (m1 :: m2 :: m3 :: ms).length, rfl⟩

/-- C10: get_xy_extrema succeeds exactly when the collection is non-empty and
every array has exactly 2 members, both non-empty; in particular no
equal-length check relates an array's x-sequence to its y-sequence, so a
Density's equal-length invariant is not enforced at this interface. -/
theorem C10_get_xy_extrema_ok_iff (arrays : List (List (List ℚ))) :
    (∃ v, get_xy_extrema arrays = Except.ok v) ↔
      (arrays ≠ [] ∧ ∀ a ∈ arrays, a.length = 2 ∧ ∀ m ∈ a, m ≠ []) := by
  constructor
  · rintro ⟨v, hv⟩
    by_cases hshape : ∀ a ∈ arrays, a.length = 2 ∧ ∀ m ∈ a, m ≠ []
    · refine ⟨?_, hshape⟩
      rintro rfl
      rw [show get_xy_extrema [] = Except.error RpError.emptyArraySequence from rfl] at hv
      cases hv
    · obtain ⟨e, he⟩ := gxeCollect_error arrays hshape
      rw [get_xy_extrema, he, except_bind_error] at hv
      cases hv
  · rintro ⟨hne, hshape⟩
    obtain ⟨x, y, hok, hx, hy⟩ := gxeCollect_ok arrays hshape
    have hxne : ¬ (x.length = 0 ∨ y.length = 0) := by
      simp [List.length_eq_zero, hx, hy, hne]
    refine ⟨(minD x, maxD x, minD y, maxD y), ?_⟩
    rw [get_xy_extrema, hok, except_bind_ok]
    simp only [hxne, if_false]

/-! Claim C8. -/

/-- C8: with colormode fillgradient and opacity 1/2, compute_trace_colors
emits exactly one gradient descriptor per trace of the dataset, every
descriptor sharing the same alpha-adjusted colorscale and the context's
global (x_min, x_max) span; and every stop color of that colorscale carries
alpha 1/2. -/
theorem C8_fillgradient_alpha_and_span (cs : ColorScale) (ctx : InterpolationContext) :
    compute_trace_colors cs "fillgradient" (some (1 / 2)) ctx =
      Except.ok (ctx.densities.map (fun row => row.map (fun _ =>
        FillSpec.fillgradient (cs.map (fun vc => (vc.1, apply_alpha vc.2 (1 / 2))))
          ctx.x_min ctx.x_max)))
    ∧ ∀ vc ∈ cs.map (fun vc => (vc.1, apply_alpha vc.2 (1 / 2))),
        (Prod.snd vc).alphaChannel = some (1 / 2) := by
  constructor
  · rfl
  · intro vc hvc
    obtain ⟨vc0, _, rfl⟩ := List.mem_map.mp hvc
    cases vc0.2 <;> rfl

/-! Claim C6. -/

theorem enumFrom_map_head? {α β : Type} (f : ℕ × α → β) (l : List α) (k : ℕ) :
    ((l.enumFrom k).map f).head? = l.head?.map (fun a => f (k, a)) := by
  cases l <;> rfl

theorem enumFrom_map_getLast? {α β : Type} (f : ℕ × α → β) (l : List α) (k : ℕ) :
    ((l.enumFrom k).map f).getLast? = l.getLast?.map (fun a => f (k + l.length - 1, a)) := by
  rw [List.getLast?_eq_getElem?, List.getLast?_eq_getElem?, List.getElem?_map,
    List.length_map, List.enumFrom_length, List.getElem?_enumFrom, Option.map_map]
  cases hl : l[l.length - 1]? with
  | none => rfl
  | some a =>
    have hne : l ≠ [] := by
      rintro rfl
      cases hl
    have h1 : 1 ≤ l.length := List.length_pos.mpr hne
    have harith : k + (l.length - 1) = k + l.length - 1 := by omega
    simp only [Option.map_some', Function.comp_apply, harith]

theorem trace_index_go_flatten (n : ℕ) :
    ∀ (rows : Densities) (k : ℕ),
      (_interpolate_trace_index_go n rows k).flatten =
        (List.range ((rows.map List.length).sum)).map
          (fun j => ((n : ℚ) - 1 - ((k + j : ℕ) : ℚ)) / ((n : ℚ) - 1)) := by
  intro rows
  induction rows with
  | nil => intro k; rfl
  | cons row rest ih =>
    intro k
    rw [show _interpolate_trace_index_go n (row :: rest) k =
      ((List.range row.length).map
        (fun j => ((n : ℚ) - 1 - ((k + j : ℕ) : ℚ)) / ((n : ℚ) - 1)))
        :: _interpolate_trace_index_go n rest (k + row.length) from rfl]
    rw [List.flatten_cons, ih (k + row.length)]
    rw [show ((row :: rest).map List.length).sum = row.length + (rest.map List.length).sum by
      simp]
    rw [List.range_add, List.map_append, List.map_map]
    congr 1
    apply List.map_congr_left
    intro j _
    simp only [Function.comp_apply, Nat.add_assoc]

/-- C6: when the context's counters agree with the dataset (n_rows = number
of rows, n_traces = total trace count), the row-index strategy gives every
trace of the first row position 1 and every trace of the last row position 0
(n_rows at least 2), and the trace-index strategy gives the first trace in
row-major order position 1 and the last position 0 (n_traces at least 2). -/
theorem C6_row_index_and_trace_index_endpoints (ctx : InterpolationContext)
    (hr : ctx.n_rows = ctx.densities.length)
    (ht : ctx.n_traces = (ctx.densities.map List.length).sum) :
    (2 ≤ ctx.densities.length →
      (_interpolate_row_index ctx).head? =
          some (List.replicate (ctx.densities.head?.getD []).length 1)
        ∧ (_interpolate_row_index ctx).getLast? =
          some (List.replicate (ctx.densities.getLast?.getD []).length 0))
    ∧ (2 ≤ (ctx.densities.map List.length).sum →
      (_interpolate_trace_index ctx).flatten.head? = some 1
        ∧ (_interpolate_trace_index ctx).flatten.getLast? = some 0) := by
  constructor
  · intro h2
    have hne : ctx.densities ≠ [] := by
      intro h
      rw [h] at h2
      simp at h2
    have hcast : (2 : ℚ) ≤ (ctx.densities.length : ℚ) := by exact_mod_cast h2
    have hden : ((ctx.n_rows : ℚ) - 1) ≠ 0 := by
      rw [hr]
      intro h
      have : (ctx.densities.length : ℚ) = 1 := by linarith
      linarith
    constructor
    · rw [show _interpolate_row_index ctx = ((ctx.densities.enumFrom 0).map
        (fun ir => List.replicate ir.2.length
          (((ctx.n_rows : ℚ) - 1 - (ir.1 : ℚ)) / ((ctx.n_rows : ℚ) - 1)))) from rfl]
      rw [enumFrom_map_head?]
      cases hh : ctx.densities.head? with
      | none => exact absurd (List.head?_eq_none_iff.mp hh) hne
      | some r0 =>
        simp only [Option.map_some', Option.getD_some, Option.some.injEq]
        have hv : ((ctx.n_rows : ℚ) - 1 - ((0 : ℕ) : ℚ)) / ((ctx.n_rows : ℚ) - 1) = 1 := by
          rw [Nat.cast_zero, sub_zero, div_self hden]
        rw [hv]
    · rw [show _interpolate_row_index ctx = ((ctx.densities.enumFrom 0).map
        (fun ir => List.replicate ir.2.length
          (((ctx.n_rows : ℚ) - 1 - (ir.1 : ℚ)) / ((ctx.n_rows : ℚ) - 1)))) from rfl]
      rw [enumFrom_map_getLast?]
      cases hh : ctx.densities.getLast? with
      | none => exact absurd (List.getLast?_eq_none_iff.mp hh) hne
      | some rl =>
        simp only [Option.map_some', Option.getD_some, Option.some.injEq]
        have hv : ((ctx.n_rows : ℚ) - 1 - ((0 + ctx.densities.length - 1 : ℕ) : ℚ))
            / ((ctx.n_rows : ℚ) - 1) = 0 := by
          have hlen1 : (1 : ℕ) ≤ ctx.densities.length := le_trans (by omega) h2
          rw [Nat.zero_add, Nat.cast_sub hlen1, Nat.cast_one, hr]
          rw [show (ctx.densities.length : ℚ) - 1 - ((ctx.densities.length : ℚ) - 1) = 0 by ring]
          exact zero_div _
        rw [hv]
  · intro h2
    have htot : (_interpolate_trace_index ctx).flatten =
        (List.range ((ctx.densities.map List.length).sum)).map
          (fun j => ((ctx.n_traces : ℚ) - 1 - ((0 + j : ℕ) : ℚ)) / ((ctx.n_traces : ℚ) - 1)) :=
      trace_index_go_flatten ctx.n_traces ctx.densities 0
    have hcast : (2 : ℚ) ≤ ((ctx.densities.map List.length).sum : ℚ) := by exact_mod_cast h2
    have hden : ((ctx.n_traces : ℚ) - 1) ≠ 0 := by
      rw [ht]
      intro h
      have : (((ctx.densities.map List.length).sum : ℕ) : ℚ) = 1 := by linarith
      linarith
    have hpos : (ctx.densities.map List.length).sum ≠ 0 := by omega
    constructor
    · rw [htot, List.head?_map, List.head?_range, if_neg hpos]
      simp only [Option.map_some', Option.some.injEq]
      rw [Nat.zero_add, Nat.cast_zero, sub_zero, div_self hden]
    · rw [htot, List.getLast?_map, List.getLast?_range, if_neg hpos]
      simp only [Option.map_some', Option.some.injEq]
      have hlen1 : (1 : ℕ) ≤ (ctx.densities.map List.length).sum := le_trans (by omega) h2
      rw [Nat.zero_add, Nat.cast_sub hlen1, Nat.cast_one, ht]
      rw [show ((((ctx.densities.map List.length).sum : ℕ) : ℚ) - 1
        - ((((ctx.densities.map List.length).sum : ℕ) : ℚ) - 1)) = 0 by ring]
      exact zero_div _

/-- C6 witness: on the concrete two-row dataset, the row-index strategy gives
the first row 1 and the last row 0, and the trace-index strategy gives the
first and last traces 1 and 0. -/
theorem C6_witness :
    ((_interpolate_row_index ⟨dTwo, 2, 2, 0, 2⟩).head? = some (List.replicate 1 1)
      ∧ (_interpolate_row_index ⟨dTwo, 2, 2, 0, 2⟩).getLast? = some (List.replicate 1 0))
    ∧ ((_interpolate_trace_index ⟨dTwo, 2, 2, 0, 2⟩).flatten.head? = some 1
      ∧ (_interpolate_trace_index ⟨dTwo, 2, 2, 0, 2⟩).flatten.getLast? = some 0) := by
  have h := C6_row_index_and_trace_index_endpoints ⟨dTwo, 2, 2, 0, 2⟩
    (by with_unfolding_all decide) (by with_unfolding_all decide)
  exact ⟨h.1 (by with_unfolding_all decide), h.2 (by with_unfolding_all decide)⟩

/-! Claim C7. -/

theorem nested_get_eq_some {α : Type} {l : List (List α)} {i j : ℕ} {a : α}
    (h : nested_get l i j = some a) : ∃ row, l[i]? = some row ∧ row[j]? = some a := by
  unfold nested_get at h
  cases hl : l[i]? with
  | none =>
    rw [hl] at h
    cases h
  | some row =>
    rw [hl, Option.some_bind] at h
    exact ⟨row, rfl, h⟩

theorem mem_of_getElem?_some {α : Type} {l : List α} {i : ℕ} {a : α}
    (h : l[i]? = some a) : a ∈ l := by
  obtain ⟨hlt, rfl⟩ := List.getElem?_eq_some.mp h
  exact List.getElem_mem hlt

theorem minMean_le {d : Densities} {row : List ℚ} {m : ℚ}
    (hrow : row ∈ traceMeans d) (hm : m ∈ row) : minMean d ≤ m :=
  le_trans (minD_le (List.mem_map.mpr ⟨row, hrow, rfl⟩)) (minD_le hm)

theorem le_maxMean {d : Densities} {row : List ℚ} {m : ℚ}
    (hrow : row ∈ traceMeans d) (hm : m ∈ row) : m ≤ maxMean d :=
  le_trans (le_maxD hm) (le_maxD (List.mem_map.mpr ⟨row, hrow, rfl⟩))

theorem minMean_attained {d : Densities} (hd : d ≠ [])
    (hrows : ∀ row ∈ d, row ≠ []) :
    ∃ row ∈ traceMeans d, minMean d ∈ row := by
  have hne : (traceMeans d).map minD ≠ [] := by
    simp [traceMeans, hd]
  have hmem := minD_mem hne
  obtain ⟨row, hrow, hrec⟩ := List.mem_map.mp hmem
  refine ⟨row, hrow, ?_⟩
  have hrowne : row ≠ [] := by
    obtain ⟨row0, hrow0, rfl⟩ := List.mem_map.mp hrow
    simp [hrows row0 hrow0]
  rw [minMean, ← hrec]
  exact minD_mem hrowne

theorem maxMean_attained {d : Densities} (hd : d ≠ [])
    (hrows : ∀ row ∈ d, row ≠ []) :
    ∃ row ∈ traceMeans d, maxMean d ∈ row := by
  have hne : (traceMeans d).map maxD ≠ [] := by
    simp [traceMeans, hd]
  have hmem := maxD_mem hne
  obtain ⟨row, hrow, hrec⟩ := List.mem_map.mp hmem
  refine ⟨row, hrow, ?_⟩
  have hrowne : row ≠ [] := by
    obtain ⟨row0, hrow0, rfl⟩ := List.mem_map.mp hrow
    simp [hrows row0 hrow0]
  rw [maxMean, ← hrec]
  exact maxD_mem hrowne

theorem mean_means_characterization (ctx : InterpolationContext)
    (hd : ctx.densities ≠ [])
    (hrows : ∀ row ∈ ctx.densities, row ≠ [])
    (htr : ∀ row ∈ ctx.densities, ∀ t ∈ row, t ≠ [] ∧ (t.map Prod.snd).sum ≠ 0)
    (hlt : minMean ctx.densities < maxMean ctx.densities) :
    _interpolate_mean_means ctx = Except.ok ((traceMeans ctx.densities).map (fun row =>
      row.map (fun m => (m - minMean ctx.densities)
        / (maxMean ctx.densities - minMean ctx.densities)))) := by
  have hA : ctx.densities.mapM (fun row => row.mapM trace_mean_checked)
      = Except.ok (traceMeans ctx.densities) := by
    apply mapM_ok_map
    intro row hrow
    apply mapM_ok_map
    intro t ht
    unfold trace_mean_checked
    rw [if_neg (by simp [List.isEmpty_iff, (htr row hrow t ht).1]),
      if_neg (htr row hrow t ht).2]
  have hany : ¬ ((traceMeans ctx.densities).any List.isEmpty = true) := by
    rw [Bool.not_eq_true, List.any_eq_false]
    intro row hrow
    obtain ⟨row0, hrow0, rfl⟩ := List.mem_map.mp hrow
    simp [List.isEmpty_iff, hrows row0 hrow0]
  have hempty : ¬ ((traceMeans ctx.densities).isEmpty = true) := by
    simp [List.isEmpty_iff, traceMeans, hd]
  unfold _interpolate_mean_means
  rw [hA, except_bind_ok, if_neg hany, if_neg hempty]
  apply mapM_ok_map
  intro row hrow
  apply mapM_ok_map
  intro m hm
  exact normalise_ok hlt (minMean_le hrow hm) (le_maxMean hrow hm)

/-- C7: under the dataset invariants (rows and traces non-empty, weights not
summing to zero), when the trace at (i, j) attains the global minimum
weighted mean and the trace at (i2, j2) the global maximum, and the two
differ, mean-means succeeds and assigns interpolant 0 to the former and 1 to
the latter. -/
theorem C7_mean_means_min_zero_max_one (ctx : InterpolationContext)
    (i j i2 j2 : ℕ) (tmin tmax : DensityTrace)
    (hd : ctx.densities ≠ [])
    (hrows : ∀ row ∈ ctx.densities, row ≠ [])
    (htr : ∀ row ∈ ctx.densities, ∀ t ∈ row, t ≠ [] ∧ (t.map Prod.snd).sum ≠ 0)
    (hmin_t : nested_get ctx.densities i j = some tmin)
    (hmax_t : nested_get ctx.densities i2 j2 = some tmax)
    (hmin : ∀ row ∈ ctx.densities, ∀ t ∈ row, trace_mean tmin ≤ trace_mean t)
    (hmax : ∀ row ∈ ctx.densities, ∀ t ∈ row, trace_mean t ≤ trace_mean tmax)
    (hstrict : trace_mean tmin < trace_mean tmax) :
    ∃ ps, _interpolate_mean_means ctx = Except.ok ps
      ∧ nested_get ps i j = some 0 ∧ nested_get ps i2 j2 = some 1 := by
  have hminall : ∀ row ∈ traceMeans ctx.densities, ∀ m ∈ row, trace_mean tmin ≤ m := by
    intro row hrow m hm
    obtain ⟨row0, hrow0, rfl⟩ := List.mem_map.mp hrow
    obtain ⟨t, ht, rfl⟩ := List.mem_map.mp hm
    exact hmin row0 hrow0 t ht
  have hmaxall : ∀ row ∈ traceMeans ctx.densities, ∀ m ∈ row, m ≤ trace_mean tmax := by
    intro row hrow m hm
    obtain ⟨row0, hrow0, rfl⟩ := List.mem_map.mp hrow
    obtain ⟨t, ht, rfl⟩ := List.mem_map.mp hm
    exact hmax row0 hrow0 t ht
  obtain ⟨rowmin, hrowmin, hjmin⟩ := nested_get_eq_some hmin_t
  obtain ⟨rowmax, hrowmax, hjmax⟩ := nested_get_eq_some hmax_t
  have hrowmin_mem : rowmin ∈ ctx.densities := mem_of_getElem?_some hrowmin
  have hrowmax_mem : rowmax ∈ ctx.densities := mem_of_getElem?_some hrowmax
  have htmin_mem : tmin ∈ rowmin := mem_of_getElem?_some hjmin
  have htmax_mem : tmax ∈ rowmax := mem_of_getElem?_some hjmax
  have hmn : minMean ctx.densities = trace_mean tmin := by
    apply le_antisymm
    · exact minMean_le (List.mem_map.mpr ⟨rowmin, hrowmin_mem, rfl⟩)
        (List.mem_map.mpr ⟨tmin, htmin_mem, rfl⟩)
    · obtain ⟨row, hrow, hmem⟩ := minMean_attained hd hrows
      exact hminall row hrow _ hmem
  have hmx : maxMean ctx.densities = trace_mean tmax := by
    apply le_antisymm
    · obtain ⟨row, hrow, hmem⟩ := maxMean_attained hd hrows
      exact hmaxall row hrow _ hmem
    · exact le_maxMean (List.mem_map.mpr ⟨rowmax, hrowmax_mem, rfl⟩)
        (List.mem_map.mpr ⟨tmax, htmax_mem, rfl⟩)
  have hlt : minMean ctx.densities < maxMean ctx.densities := by
    rw [hmn, hmx]
    exact hstrict
  refine ⟨_, mean_means_characterization ctx hd hrows htr hlt, ?_, ?_⟩
  · unfold nested_get traceMeans
    rw [List.getElem?_map, List.getElem?_map, hrowmin]
    simp only [Option.map_some', Option.some_bind]
    rw [List.getElem?_map, List.getElem?_map, hjmin]
    simp only [Option.map_some', Option.some.injEq]
    rw [hmn, sub_self, zero_div]
  · unfold nested_get traceMeans
    rw [List.getElem?_map, List.getElem?_map, hrowmax]
    simp only [Option.map_some', Option.some_bind]
    rw [List.getElem?_map, List.getElem?_map, hjmax]
    simp only [Option.map_some', Option.some.injEq]
    rw [hmx, div_self (ne_of_gt (by linarith))]

/-- C7 witness: on the two-trace dataset with means 0 and 2, the trace with
the smaller mean gets 0 and the trace with the larger mean gets 1. -/
theorem C7_witness :
    ∃ ps, _interpolate_mean_means ⟨dTwo, 2, 2, 0, 2⟩ = Except.ok ps
      ∧ nested_get ps 0 0 = some 0 ∧ nested_get ps 1 0 = some 1 :=
  C7_mean_means_min_zero_max_one ⟨dTwo, 2, 2, 0, 2⟩ 0 0 1 0 [(0, 1)] [(2, 1)]
    (by with_unfolding_all decide) (by with_unfolding_all decide)
    (by with_unfolding_all decide) (by with_unfolding_all decide)
    (by with_unfolding_all decide) (by with_unfolding_all decide)
    (by with_unfolding_all decide) (by with_unfolding_all decide)

/-! Claim C9. -/

theorem normalise_error_not_icm {v mn mx : ℚ} {e : RpError}
    (h : normalise_min_max v mn mx = Except.error e) : e.isInvalidCM = false := by
  unfold normalise_min_max at h
  by_cases h1 : mx ≤ mn
  · rw [if_pos h1] at h
    cases h
    rfl
  · rw [if_neg h1] at h
    by_cases h2 : ¬(mn ≤ v ∧ v ≤ mx)
    · rw [if_pos h2] at h
      cases h
      rfl
    · rw [if_neg h2] at h
      cases h

theorem interpolate_color_error_not_icm {cs : ColorScale} {p : ℚ} {e : RpError}
    (h : interpolate_color cs p = Except.error e) : e.isInvalidCM = false := by
  by_cases h1 : 0 ≤ p ∧ p ≤ 1
  · by_cases h2 : p ∈ cs.map Prod.fst
    · rw [interpolate_color_stop h1 h2] at h
      cases h
    · cases hmin : ((cs.map Prod.fst).filter (fun s => p < s)).min? with
      | none =>
        rw [interpolate_color_no_ceil h1 h2 hmin] at h
        cases h
        rfl
      | some ceil =>
        cases hmax : ((cs.map Prod.fst).filter (fun s => s < p)).max? with
        | none =>
          rw [interpolate_color_no_floor h1 h2 hmin hmax] at h
          cases h
          rfl
        | some floor =>
          rw [interpolate_color_blend h1 h2 hmin hmax] at h
          cases hn : normalise_min_max p floor ceil with
          | error e1 =>
            rw [hn, except_map_error] at h
            cases h
            exact normalise_error_not_icm hn
          | ok v =>
            rw [hn, except_map_ok] at h
            cases h
  · rw [interpolate_color_out_of_range h1] at h
    cases h
    rfl

theorem get_fill_color_error_not_icm {cs : ColorScale} {op : Option ℚ} {p : ℚ} {e : RpError}
    (h : _get_fill_color cs op p = Except.error e) : e.isInvalidCM = false := by
  unfold _get_fill_color at h
  cases hic : interpolate_color cs p with
  | error e1 =>
    rw [hic, except_bind_error] at h
    cases h
    exact interpolate_color_error_not_icm hic
  | ok c =>
    cases op with
    | none =>
      rw [hic, except_bind_ok] at h
      cases h
    | some o =>
      rw [hic, except_bind_ok] at h
      cases h

theorem trace_mean_checked_error_not_icm {t : DensityTrace} {e : RpError}
    (h : trace_mean_checked t = Except.error e) : e.isInvalidCM = false := by
  unfold trace_mean_checked at h
  by_cases h1 : t.isEmpty = true
  · rw [if_pos h1] at h
    cases h
    rfl
  · rw [if_neg h1] at h
    by_cases h2 : (t.map Prod.snd).sum = 0
    · rw [if_pos h2] at h
      cases h
      rfl
    · rw [if_neg h2] at h
      cases h

theorem mean_minmax_error_not_icm {ctx : InterpolationContext} {e : RpError}
    (h : _interpolate_mean_minmax ctx = Except.error e) : e.isInvalidCM = false := by
  unfold _interpolate_mean_minmax at h
  obtain ⟨row, _, hrow⟩ := mapM_error_mem _ _ _ h
  obtain ⟨t, _, ht⟩ := mapM_error_mem _ _ _ hrow
  cases htc : trace_mean_checked t with
  | error e1 =>
    rw [htc, except_bind_error] at ht
    cases ht
    exact trace_mean_checked_error_not_icm htc
  | ok m =>
    rw [htc, except_bind_ok] at ht
    exact normalise_error_not_icm ht

theorem mean_means_error_not_icm {ctx : InterpolationContext} {e : RpError}
    (h : _interpolate_mean_means ctx = Except.error e) : e.isInvalidCM = false := by
  unfold _interpolate_mean_means at h
  cases hA : ctx.densities.mapM (fun row => row.mapM trace_mean_checked) with
  | error e1 =>
    rw [hA, except_bind_error] at h
    cases h
    obtain ⟨row, _, hrow⟩ := mapM_error_mem _ _ _ hA
    obtain ⟨t, _, ht⟩ := mapM_error_mem _ _ _ hrow
    exact trace_mean_checked_error_not_icm ht
  | ok means =>
    rw [hA, except_bind_ok] at h
    by_cases h1 : means.any List.isEmpty = true
    · rw [if_pos h1] at h
      cases h
      rfl
    · rw [if_neg h1] at h
      by_cases h2 : means.isEmpty = true
      · rw [if_pos h2] at h
        cases h
        rfl
      · rw [if_neg h2] at h
        obtain ⟨row, _, hrow⟩ := mapM_error_mem _ _ _ h
        obtain ⟨m, _, hm⟩ := mapM_error_mem _ _ _ hrow
        exact normalise_error_not_icm hm

theorem compute_invalid_colormode (cs : ColorScale) (op : Option ℚ)
    (ctx : InterpolationContext) (cm : String)
    (h1 : cm ≠ "fillgradient") (h2 : cm ≠ "row-index") (h3 : cm ≠ "trace-index")
    (h4 : cm ≠ "trace-index-row-wise") (h5 : cm ≠ "mean-minmax") (h6 : cm ≠ "mean-means") :
    compute_trace_colors cs cm op ctx = Except.error (RpError.invalidColormode cm) := by
  unfold compute_trace_colors
  rw [if_neg h1, if_neg h2, if_neg h3, if_neg h4, if_neg h5, if_neg h6]

/-- C9: an unrecognized colormode name makes compute_trace_colors fail with
the invalid-argument error, whose fixed message text enumerates fillgradient
and the five solid colormode names; each recognized name never produces that
error. -/
theorem C9_invalid_colormode_error (cs : ColorScale) (op : Option ℚ)
    (ctx : InterpolationContext) (cm : String) :
    (cm ∉ validColormodes →
      compute_trace_colors cs cm op ctx = Except.error (RpError.invalidColormode cm)
        ∧ errorMessage (RpError.invalidColormode cm) = colormodeMsgPrefix ++ cm ++ " instead."
        ∧ ∀ name ∈ validColormodes, ∃ pre post, colormodeMsgPrefix = pre ++ (name ++ post))
    ∧ (cm ∈ validColormodes → ∀ e,
        compute_trace_colors cs cm op ctx = Except.error e → e.isInvalidCM = false) := by
  constructor
  · intro hnot
    simp only [validColormodes, solidColormodes, List.mem_cons, List.not_mem_nil, or_false,
      not_or] at hnot
    obtain ⟨h1, h2, h3, h4, h5, h6⟩ := hnot
    refine ⟨compute_invalid_colormode cs op ctx cm h1 h2 h3 h4 h5 h6, rfl, ?_⟩
    intro name hname
    simp only [validColormodes, solidColormodes, List.mem_cons, List.not_mem_nil,
      or_false] at hname
    rcases hname with rfl | rfl | rfl | rfl | rfl | rfl
    · exact ⟨"The colormode argument should be ",
        " or one of the solid colormodes (row-index, trace-index, trace-index-row-wise, mean-minmax, mean-means), got ",
        by with_unfolding_all decide⟩
    · exact ⟨"The colormode argument should be fillgradient or one of the solid colormodes (",
        ", trace-index, trace-index-row-wise, mean-minmax, mean-means), got ",
        by with_unfolding_all decide⟩
    · exact ⟨"The colormode argument should be fillgradient or one of the solid colormodes (row-index, ",
        ", trace-index-row-wise, mean-minmax, mean-means), got ",
        by with_unfolding_all decide⟩
    · exact ⟨"The colormode argument should be fillgradient or one of the solid colormodes (row-index, trace-index, ",
        ", mean-minmax, mean-means), got ",
        by with_unfolding_all decide⟩
    · exact ⟨"The colormode argument should be fillgradient or one of the solid colormodes (row-index, trace-index, trace-index-row-wise, ",
        ", mean-means), got ",
        by with_unfolding_all decide⟩
    · exact ⟨"The colormode argument should be fillgradient or one of the solid colormodes (row-index, trace-index, trace-index-row-wise, mean-minmax, ",
        "), got ",
        by with_unfolding_all decide⟩
  · intro hmem e h
    simp only [validColormodes, solidColormodes, List.mem_cons, List.not_mem_nil,
      or_false] at hmem
    rcases hmem with rfl | rfl | rfl | rfl | rfl | rfl
    · rw [show compute_trace_colors cs "fillgradient" op ctx
        = Except.ok (ctx.densities.map (fun row => row.map (fun _ =>
            FillSpec.fillgradient (adjust_opacity cs op) ctx.x_min ctx.x_max))) from rfl] at h
      cases h
    · rw [show compute_trace_colors cs "row-index" op ctx
        = (_interpolate_row_index ctx).mapM
            (fun row => row.mapM (_get_fill_color (adjust_opacity cs op) op)) from rfl] at h
      obtain ⟨row, _, hrow⟩ := mapM_error_mem _ _ _ h
      obtain ⟨p, _, hp⟩ := mapM_error_mem _ _ _ hrow
      exact get_fill_color_error_not_icm hp
    · rw [show compute_trace_colors cs "trace-index" op ctx
        = (_interpolate_trace_index ctx).mapM
            (fun row => row.mapM (_get_fill_color (adjust_opacity cs op) op)) from rfl] at h
      obtain ⟨row, _, hrow⟩ := mapM_error_mem _ _ _ h
      obtain ⟨p, _, hp⟩ := mapM_error_mem _ _ _ hrow
      exact get_fill_color_error_not_icm hp
    · rw [show compute_trace_colors cs "trace-index-row-wise" op ctx
        = (_interpolate_trace_index_row_wise ctx).mapM
            (fun row => row.mapM (_get_fill_color (adjust_opacity cs op) op)) from rfl] at h
      obtain ⟨row, _, hrow⟩ := mapM_error_mem _ _ _ h
      obtain ⟨p, _, hp⟩ := mapM_error_mem _ _ _ hrow
      exact get_fill_color_error_not_icm hp
    · rw [show compute_trace_colors cs "mean-minmax" op ctx
        = (do
            let ps ← _interpolate_mean_minmax ctx
            ps.mapM (fun row => row.mapM (_get_fill_color (adjust_opacity cs op) op)))
          from rfl] at h
      cases hs : _interpolate_mean_minmax ctx with
      | error e1 =>
        rw [hs, except_bind_error] at h
        cases h
        exact mean_minmax_error_not_icm hs
      | ok ps =>
        rw [hs, except_bind_ok] at h
        obtain ⟨row, _, hrow⟩ := mapM_error_mem _ _ _ h
        obtain ⟨p, _, hp⟩ := mapM_error_mem _ _ _ hrow
        exact get_fill_color_error_not_icm hp
    · rw [show compute_trace_colors cs "mean-means" op ctx
        = (do
            let ps ← _interpolate_mean_means ctx
            ps.mapM (fun row => row.mapM (_get_fill_color (adjust_opacity cs op) op)))
          from rfl] at h
      cases hs : _interpolate_mean_means ctx with
      | error e1 =>
        rw [hs, except_bind_error] at h
        cases h
        exact mean_means_error_not_icm hs
      | ok ps =>
        rw [hs, except_bind_ok] at h
        obtain ⟨row, _, hrow⟩ := mapM_error_mem _ _ _ h
        obtain ⟨p, _, hp⟩ := mapM_error_mem _ _ _ hrow
        exact get_fill_color_error_not_icm hp

/-- C9 witness: the unrecognized name bogus yields the invalid-argument
error on a concrete input. -/
theorem C9_witness :
    compute_trace_colors csBW "bogus" none ⟨dUnit, 1, 1, 0, 2⟩
      = Except.error (RpError.invalidColormode "bogus") :=
  ((C9_invalid_colormode_error csBW none ⟨dUnit, 1, 1, 0, 2⟩ "bogus").1
    (by with_unfolding_all decide)).1

/-! Claim C2. -/

/-- C2: the claimed end-to-end run cannot happen in the code as written,
because deriving the context with InterpolationContext.from_densities raises
a TypeError on every input (the keyword densities= does not match the
parameter arrays of get_xy_extrema); this theorem evaluates that failure at
the claim's dataset, and then shows that with the context derived as the
spec intends (from_densities_spec: n_rows = 1, n_traces = 1, global x-extrema
(0, 2)), compute_trace_colors with colormode mean-minmax, no opacity and the
black-to-white colorscale yields exactly one fill specification, the solid
color rgb(127.5, 127.5, 127.5). -/
theorem C2_mean_minmax_end_to_end :
    from_densities dUnit = Except.error RpError.typeErrorUnexpectedKw
    ∧ from_densities_spec dUnit = Except.ok ⟨dUnit, 1, 1, 0, 2⟩
    ∧ compute_trace_colors csBW "mean-minmax" none ⟨dUnit, 1, 1, 0, 2⟩
        = Except.ok [[FillSpec.fillcolor (Color.rgb (255 / 2) (255 / 2) (255 / 2))]] := by
  refine ⟨rfl, ?_, ?_⟩ <;> with_unfolding_all decide

end Ridgeplot
